import Mathlib

/-!
Verification of the wallpaper mirror pipeline (`prepare_sync.py`,
`scrape_bing.py`, `build_date_catalog.py`).

The Python sources are shallowly embedded: pure helpers become Lean
functions, the stateful main loops become explicit state-passing
functions, Python `set`s become `Finset String`, Python `dict`s become
association lists with dict lookup/insert/delete semantics, and the
network plus filesystem are oracles passed in as explicit functions.
-/

namespace Wallpaper

/-! ## Common: scrape state (`scrape_state.json`)

Both `prepare_sync.py` and `scrape_bing.py` operate on the same three
key-sets (`done_months`, `done_images`, `failed_images`), loaded from and
saved to `scrape_state.json`.  Python sets are embedded as `Finset String`.
-/

@[ext]
structure ScrapeState where
  done_months : Finset String
  done_images : Finset String
  failed_images : Finset String
deriving DecidableEq

/-! ## prepare_sync.py — SyncReconciler

`prepare_sync.main` (lines 94-161), with argument parsing, CSV loading and
disk probing abstracted into explicit inputs:
  * `this_month` — `datetime.now().strftime("%Y%m")`;
  * `catalog_rows` — the rows of `image_dates.csv` restricted to the month
    window (`load_catalog`), each with `yyyymm`, `image_id`, `filename`;
  * `present?` — `image_is_present wallpaper_dir filename` as an oracle on
    the filename (lines 63-68 only consult the filesystem).
-/

structure CatRow where
  yyyymm : String
  image_id : String
  filename : String
deriving DecidableEq, Repr

/-- Key `f"{yyyymm}/{image_id}"` used in `done_images` / `failed_images`. -/
def itemKey (yyyymm image_id : String) : String := yyyymm ++ "/" ++ image_id

/-- Lines 101-107: rows whose file is on disk. -/
def presentRows (catalog : List CatRow) (present? : String → Bool) : List CatRow :=
  catalog.filter fun r => present? r.filename

/-- Lines 101-107: rows whose file is missing from disk. -/
def missingRows (catalog : List CatRow) (present? : String → Bool) : List CatRow :=
  catalog.filter fun r => !(present? r.filename)

/-- Embedding of `prepare_sync.main`, lines 94-161: the state rewrite and the return
code (`1` when something is missing, else `0`).  The loops over `present`
and `missing` are folds in source order; the loops over the
`months_with_missing` and `months_with_catalog - months_with_missing`
sets are `Finset` operations (set iteration order does not affect the
result of repeated `add`/`discard`). -/
def reconcile (this_month : String) (catalog : List CatRow)
    (present? : String → Bool) (st : ScrapeState) : ScrapeState × Nat :=
  let present := presentRows catalog present?
  let missing := missingRows catalog present?
  let months_with_catalog : Finset String := (catalog.map (·.yyyymm)).toFinset
  let months_with_missing : Finset String := (missing.map (·.yyyymm)).toFinset
  -- lines 121-123: mark images we have as done
  let done_images := present.foldl (fun s r => insert (itemKey r.yyyymm r.image_id) s)
    st.done_images
  -- lines 125-129: un-mark missing images
  let done_images := missing.foldl (fun s r => s.erase (itemKey r.yyyymm r.image_id))
    done_images
  let failed_images := missing.foldl (fun s r => s.erase (itemKey r.yyyymm r.image_id))
    st.failed_images
  -- lines 135-136: months with missing images are removed
  let done_months := st.done_months \ months_with_missing
  -- lines 138-140: fully present months other than the current one are added
  let done_months := done_months ∪
    (months_with_catalog \ months_with_missing).filter (· ≠ this_month)
  -- line 143: the current month is never in done_months
  let done_months := done_months.erase this_month
  (⟨done_months, done_images, failed_images⟩,
   if missing.isEmpty then 0 else 1)

/-! Membership characterizations of the two fold shapes in `reconcile`. -/

lemma mem_foldl_insert (f : CatRow → String) (L : List CatRow) (s : Finset String)
    (k : String) :
    k ∈ L.foldl (fun s r => insert (f r) s) s ↔ k ∈ s ∨ ∃ r ∈ L, f r = k := by
  induction L generalizing s with
  | nil => simp
  | cons a L ih =>
    simp only [List.foldl_cons, ih, Finset.mem_insert, List.mem_cons]
    constructor
    · rintro (⟨h | h⟩ | ⟨r, hr, hk⟩)
      · exact Or.inr ⟨a, Or.inl rfl, h.symm⟩
      · exact Or.inl h
      · exact Or.inr ⟨r, Or.inr hr, hk⟩
    · rintro (h | ⟨r, hr | hr, hk⟩)
      · exact Or.inl (Or.inr h)
      · exact Or.inl (Or.inl (hr ▸ hk.symm))
      · exact Or.inr ⟨r, hr, hk⟩

lemma mem_foldl_erase (f : CatRow → String) (L : List CatRow) (s : Finset String)
    (k : String) :
    k ∈ L.foldl (fun s r => s.erase (f r)) s ↔ k ∈ s ∧ ∀ r ∈ L, f r ≠ k := by
  induction L generalizing s with
  | nil => simp
  | cons a L ih =>
    simp only [List.foldl_cons, ih, Finset.mem_erase, List.mem_cons]
    constructor
    · rintro ⟨⟨hne, hs⟩, hall⟩
      refine ⟨hs, ?_⟩
      rintro r (rfl | hr)
      · exact fun h => hne h.symm
      · exact hall r hr
    · rintro ⟨hs, hall⟩
      exact ⟨⟨fun h => hall a (Or.inl rfl) h.symm, hs⟩, fun r hr => hall r (Or.inr hr)⟩

lemma mem_done_images_reconcile (tm : String) (c : List CatRow)
    (p : String → Bool) (st : ScrapeState) (k : String) :
    k ∈ (reconcile tm c p st).1.done_images ↔
      ((k ∈ st.done_images ∨
          ∃ r ∈ presentRows c p, itemKey r.yyyymm r.image_id = k) ∧
        ∀ r ∈ missingRows c p, itemKey r.yyyymm r.image_id ≠ k) := by
  simp only [reconcile, mem_foldl_erase, mem_foldl_insert]

lemma mem_failed_images_reconcile (tm : String) (c : List CatRow)
    (p : String → Bool) (st : ScrapeState) (k : String) :
    k ∈ (reconcile tm c p st).1.failed_images ↔
      (k ∈ st.failed_images ∧
        ∀ r ∈ missingRows c p, itemKey r.yyyymm r.image_id ≠ k) := by
  simp only [reconcile, mem_foldl_erase]

lemma mem_done_months_reconcile (tm : String) (c : List CatRow)
    (p : String → Bool) (st : ScrapeState) (m : String) :
    m ∈ (reconcile tm c p st).1.done_months ↔
      (m ≠ tm ∧
        ((m ∈ st.done_months ∧ m ∉ (missingRows c p).map (·.yyyymm)) ∨
          (m ∈ c.map (·.yyyymm) ∧ m ∉ (missingRows c p).map (·.yyyymm)))) := by
  simp only [reconcile, Finset.mem_erase, Finset.mem_union, Finset.mem_filter,
    Finset.mem_sdiff, List.mem_toFinset]
  tauto

/-- C1 (counterexample): the claim says a present entry's key is never in
`failed_images` and that no key is ever in both sets.  But `reconcile`
(lines 121-123) only adds present keys to `done_images` and never removes
them from `failed_images`: with prior state `failed_images = {"202501/A"}`
and the catalog entry `202501/A` present on disk, the written state has
the key in both `done_images` and `failed_images`. -/
theorem reconcile_present_key_in_both :
    "202501/A" ∈ (reconcile "202502" [⟨"202501", "A", "202501_A.jpg"⟩]
        (fun _ => true) ⟨∅, ∅, {"202501/A"}⟩).1.done_images ∧
      "202501/A" ∈ (reconcile "202502" [⟨"202501", "A", "202501_A.jpg"⟩]
        (fun _ => true) ⟨∅, ∅, {"202501/A"}⟩).1.failed_images := by
  decide

/-- C1 (amended): after `reconcile` runs over a month window whose catalog
keys are distinct, every present entry's key is in `done_images`, and
every missing entry's key is in neither `done_images` nor `failed_images`;
however a present entry's key is NOT removed from `failed_images`, so a
previously failed key whose file has since appeared stays in
`failed_images` and can be in both sets at once. -/
theorem reconcile_images_spec (tm : String) (c : List CatRow)
    (p : String → Bool) (st : ScrapeState)
    (hnd : (c.map fun r => itemKey r.yyyymm r.image_id).Nodup) :
    (∀ r ∈ presentRows c p,
        itemKey r.yyyymm r.image_id ∈ (reconcile tm c p st).1.done_images) ∧
      (∀ r ∈ missingRows c p,
        itemKey r.yyyymm r.image_id ∉ (reconcile tm c p st).1.done_images ∧
          itemKey r.yyyymm r.image_id ∉ (reconcile tm c p st).1.failed_images) ∧
      (∀ r ∈ presentRows c p,
        itemKey r.yyyymm r.image_id ∈ st.failed_images →
          itemKey r.yyyymm r.image_id ∈ (reconcile tm c p st).1.failed_images) := by
  have keysep : ∀ r ∈ presentRows c p, ∀ r' ∈ missingRows c p,
      itemKey r'.yyyymm r'.image_id ≠ itemKey r.yyyymm r.image_id := by
    intro r hr r' hr' heq
    have hrc : r ∈ c := (List.mem_filter.mp hr).1
    have hrc' : r' ∈ c := (List.mem_filter.mp hr').1
    have : r' = r := List.inj_on_of_nodup_map hnd hrc' hrc heq
    have hp : p r.filename = true := (List.mem_filter.mp hr).2
    have hm : (!(p r'.filename)) = true := (List.mem_filter.mp hr').2
    rw [this, hp] at hm
    simp at hm
  refine ⟨?_, ?_, ?_⟩
  · intro r hr
    rw [mem_done_images_reconcile]
    exact ⟨Or.inr ⟨r, hr, rfl⟩, fun r' hr' => keysep r hr r' hr'⟩
  · intro r hr
    constructor
    · rw [mem_done_images_reconcile]
      rintro ⟨-, hall⟩
      exact hall r hr rfl
    · rw [mem_failed_images_reconcile]
      rintro ⟨-, hall⟩
      exact hall r hr rfl
  · intro r hr hf
    rw [mem_failed_images_reconcile]
    exact ⟨hf, fun r' hr' => keysep r hr r' hr'⟩

/-- Witness for `reconcile_images_spec` at a concrete catalog: one present
entry `202501/A` (previously failed) and one missing entry `202501/B`. -/
theorem reconcile_images_spec_witness :
    (∀ r ∈ presentRows [CatRow.mk "202501" "A" "202501_A.jpg",
          CatRow.mk "202501" "B" "202501_B.jpg"]
        (fun f => f = "202501_A.jpg"),
        itemKey r.yyyymm r.image_id ∈
          (reconcile "202502" [CatRow.mk "202501" "A" "202501_A.jpg",
              CatRow.mk "202501" "B" "202501_B.jpg"]
            (fun f => f = "202501_A.jpg")
            ⟨∅, ∅, {"202501/A", "202501/B"}⟩).1.done_images) ∧
      (∀ r ∈ missingRows [CatRow.mk "202501" "A" "202501_A.jpg",
          CatRow.mk "202501" "B" "202501_B.jpg"]
        (fun f => f = "202501_A.jpg"),
        itemKey r.yyyymm r.image_id ∉
          (reconcile "202502" [CatRow.mk "202501" "A" "202501_A.jpg",
              CatRow.mk "202501" "B" "202501_B.jpg"]
            (fun f => f = "202501_A.jpg")
            ⟨∅, ∅, {"202501/A", "202501/B"}⟩).1.done_images ∧
          itemKey r.yyyymm r.image_id ∉
            (reconcile "202502" [CatRow.mk "202501" "A" "202501_A.jpg",
                CatRow.mk "202501" "B" "202501_B.jpg"]
              (fun f => f = "202501_A.jpg")
              ⟨∅, ∅, {"202501/A", "202501/B"}⟩).1.failed_images) ∧
      (∀ r ∈ presentRows [CatRow.mk "202501" "A" "202501_A.jpg",
          CatRow.mk "202501" "B" "202501_B.jpg"]
        (fun f => f = "202501_A.jpg"),
        itemKey r.yyyymm r.image_id ∈
          (⟨∅, ∅, {"202501/A", "202501/B"}⟩ : ScrapeState).failed_images →
          itemKey r.yyyymm r.image_id ∈
            (reconcile "202502" [CatRow.mk "202501" "A" "202501_A.jpg",
                CatRow.mk "202501" "B" "202501_B.jpg"]
              (fun f => f = "202501_A.jpg")
              ⟨∅, ∅, {"202501/A", "202501/B"}⟩).1.failed_images) :=
  reconcile_images_spec "202502"
    [CatRow.mk "202501" "A" "202501_A.jpg", CatRow.mk "202501" "B" "202501_B.jpg"]
    (fun f => f = "202501_A.jpg") ⟨∅, ∅, {"202501/A", "202501/B"}⟩ (by decide)

/-- C2: in the state written by `reconcile`, a month with a catalog entry
in the window is in `done_months` iff it has zero missing entries and is
not the current month; every month with a missing entry is absent; months
without catalog entries keep their prior membership unless they are the
current month; and the current month is always absent, for every input
window and prior state. -/
theorem reconcile_done_months_spec (tm : String) (c : List CatRow)
    (p : String → Bool) (st : ScrapeState) :
    (∀ m ∈ c.map (·.yyyymm),
        (m ∈ (reconcile tm c p st).1.done_months ↔
          m ∉ (missingRows c p).map (·.yyyymm) ∧ m ≠ tm)) ∧
      (∀ m ∈ (missingRows c p).map (·.yyyymm),
        m ∉ (reconcile tm c p st).1.done_months) ∧
      (∀ m ∉ c.map (·.yyyymm),
        (m ∈ (reconcile tm c p st).1.done_months ↔
          m ∈ st.done_months ∧ m ≠ tm)) ∧
      tm ∉ (reconcile tm c p st).1.done_months := by
  have hsub : ∀ m, m ∈ (missingRows c p).map (·.yyyymm) → m ∈ c.map (·.yyyymm) := by
    intro m hm
    obtain ⟨r, hr, rfl⟩ := List.mem_map.mp hm
    exact List.mem_map.mpr ⟨r, (List.mem_filter.mp hr).1, rfl⟩
  refine ⟨?_, ?_, ?_, ?_⟩
  · intro m hm
    rw [mem_done_months_reconcile]
    tauto
  · intro m hm
    rw [mem_done_months_reconcile]
    tauto
  · intro m hm
    rw [mem_done_months_reconcile]
    have := hsub m
    tauto
  · rw [mem_done_months_reconcile]
    tauto

/-- Witness for `reconcile_done_months_spec`: catalog months `202412`
(fully present) and `202501` (missing entry); prior `done_months` holds
`202311` (outside the window) and `202501`; current month `202502`. -/
theorem reconcile_done_months_spec_witness :
    ("202412" ∈ (reconcile "202502"
        [CatRow.mk "202412" "A" "f1.jpg", CatRow.mk "202501" "B" "f2.jpg"]
        (fun f => f = "f1.jpg")
        ⟨{"202311", "202501"}, ∅, ∅⟩).1.done_months ↔
      "202412" ∉ (missingRows
          [CatRow.mk "202412" "A" "f1.jpg", CatRow.mk "202501" "B" "f2.jpg"]
          (fun f => f = "f1.jpg")).map (·.yyyymm) ∧ "202412" ≠ "202502") ∧
      "202501" ∉ (reconcile "202502"
        [CatRow.mk "202412" "A" "f1.jpg", CatRow.mk "202501" "B" "f2.jpg"]
        (fun f => f = "f1.jpg")
        ⟨{"202311", "202501"}, ∅, ∅⟩).1.done_months ∧
      ("202311" ∈ (reconcile "202502"
          [CatRow.mk "202412" "A" "f1.jpg", CatRow.mk "202501" "B" "f2.jpg"]
          (fun f => f = "f1.jpg")
          ⟨{"202311", "202501"}, ∅, ∅⟩).1.done_months ↔
        "202311" ∈ ({"202311", "202501"} : Finset String) ∧ "202311" ≠ "202502") ∧
      "202502" ∉ (reconcile "202502"
        [CatRow.mk "202412" "A" "f1.jpg", CatRow.mk "202501" "B" "f2.jpg"]
        (fun f => f = "f1.jpg")
        ⟨{"202311", "202501"}, ∅, ∅⟩).1.done_months := by
  have h := reconcile_done_months_spec "202502"
    [CatRow.mk "202412" "A" "f1.jpg", CatRow.mk "202501" "B" "f2.jpg"]
    (fun f => f = "f1.jpg") ⟨{"202311", "202501"}, ∅, ∅⟩
  exact ⟨h.1 "202412" (by decide), h.2.1 "202501" (by decide),
    h.2.2.1 "202311" (by decide), h.2.2.2⟩

/-- C7: `reconcile` is idempotent — with the same catalog, the same disk
inventory and the same current month, running it on its own output yields
the identical state and the identical exit code. -/
theorem reconcile_idempotent (tm : String) (c : List CatRow)
    (p : String → Bool) (st : ScrapeState) :
    reconcile tm c p (reconcile tm c p st).1 = reconcile tm c p st := by
  have hdm : (reconcile tm c p (reconcile tm c p st).1).1.done_months
      = (reconcile tm c p st).1.done_months := by
    ext m
    simp only [mem_done_months_reconcile]
    tauto
  have hdi : (reconcile tm c p (reconcile tm c p st).1).1.done_images
      = (reconcile tm c p st).1.done_images := by
    ext k
    simp only [mem_done_images_reconcile]
    tauto
  have hfi : (reconcile tm c p (reconcile tm c p st).1).1.failed_images
      = (reconcile tm c p st).1.failed_images := by
    ext k
    simp only [mem_failed_images_reconcile]
    tauto
  have hstate : (reconcile tm c p (reconcile tm c p st).1).1
      = (reconcile tm c p st).1 := by
    apply ScrapeState.ext <;> first | exact hdm | exact hdi | exact hfi
  exact Prod.ext_iff.mpr ⟨hstate, rfl⟩

/-! ## Month keys and `generate_months`

The same `generate_months` function appears verbatim in
`scrape_bing.py` (lines 53-67), `build_date_catalog.py` (lines 50-63) and
`prepare_sync.py` (lines 40-53).  Month values are the `(year, month)`
pair carried by the `datetime(year, month, 1)` objects the source builds;
`datetime` construction validates `1 <= year <= 9999` and
`1 <= month <= 12` (raising `ValueError` otherwise, embedded as `none`),
and `datetime` comparison with day fixed to 1 is lexicographic on
`(year, month)`.
-/

/-- Python string slicing `s[a:b]` (for the non-negative indices used here). -/
def strSlice (s : String) (a b : Nat) : String := ⟨(s.data.drop a).take (b - a)⟩

/-- Digit accumulator for `int(...)` on a digit string. -/
def parseDigits : List Char → Nat → Option Nat
  | [], acc => some acc
  | c :: cs, acc =>
    if c.isDigit then parseDigits cs (acc * 10 + (c.toNat - 48)) else none

/-- Python `int(s)` on the non-negative numerals used for month keys;
a non-digit or empty string raises `ValueError`, embedded as `none`. -/
def intNat? (s : String) : Option Nat :=
  if s.data.isEmpty then none else parseDigits s.data 0

/-- Zero-padded two-digit rendering, `strftime` field `%m`. -/
def pad2 (n : Nat) : String := if n < 10 then "0" ++ toString n else toString n

/-- Zero-padded four-digit rendering, `strftime` field `%Y`
(years validated by `datetime` are at most 9999). -/
def pad4 (n : Nat) : String :=
  if n < 10 then "000" ++ toString n
  else if n < 100 then "00" ++ toString n
  else if n < 1000 then "0" ++ toString n
  else toString n

/-- Rendering `cur.strftime("%Y%m")` of a `(year, month)` pair. -/
def ymFormat (c : Nat × Nat) : String := pad4 c.1 ++ pad2 c.2

/-- Embedding of `parse` inside `generate_months`:
`datetime(int(s[:4]), int(s[4:6]), 1)`.  `datetime` raises unless
`1 <= year <= 9999` and `1 <= month <= 12`; raising is embedded as `none`. -/
def parseMonth (s : String) : Option (Nat × Nat) :=
  match intNat? (strSlice s 0 4), intNat? (strSlice s 4 6) with
  | some y, some m =>
    if 1 ≤ y ∧ y ≤ 9999 ∧ 1 ≤ m ∧ m ≤ 12 then some (y, m) else none
  | _, _ => none

/-- Linear index of a `(year, month)` pair; on the valid months the
source can construct (`1 ≤ month ≤ 12`), comparison of these indices is
exactly `datetime` comparison (see `monthIdx_le_iff`). -/
def monthIdx (c : Nat × Nat) : Nat := c.1 * 12 + c.2

/-- Embedding of `cur.replace(year=..., month=...)`: `datetime.replace`
re-validates its fields exactly like the constructor
(`1 <= year <= 9999`, `1 <= month <= 12`), raising `ValueError`
otherwise, embedded as `none`. -/
def replaceYM (y m : Nat) : Option (Nat × Nat) :=
  if 1 ≤ y ∧ y ≤ 9999 ∧ 1 ≤ m ∧ m ≤ 12 then some (y, m) else none

/-- December-to-January rollover step of the `generate_months` loop
(lines 62-66 of `scrape_bing.py`): `cur.replace(year=cur.year + 1,
month=1)` or `cur.replace(month=cur.month + 1)`.  Stepping past
`999912` constructs year 10000 and raises, embedded as `none`. -/
def nextMonth (c : Nat × Nat) : Option (Nat × Nat) :=
  if c.2 = 12 then replaceYM (c.1 + 1) 1 else replaceYM c.1 (c.2 + 1)

lemma replaceYM_some (y m : Nat) (c : Nat × Nat) (h : replaceYM y m = some c) :
    c = (y, m) ∧ 1 ≤ y ∧ y ≤ 9999 ∧ 1 ≤ m ∧ m ≤ 12 := by
  rw [replaceYM] at h
  split at h
  · cases h
    exact ⟨rfl, by assumption⟩
  · exact Option.noConfusion h

lemma monthIdx_nextMonth (c nxt : Nat × Nat) (h : nextMonth c = some nxt) :
    monthIdx nxt = monthIdx c + 1 := by
  rw [nextMonth] at h
  by_cases h12 : c.2 = 12
  · rw [if_pos h12] at h
    obtain ⟨rfl, -⟩ := replaceYM_some _ _ _ h
    show (c.1 + 1) * 12 + 1 = c.1 * 12 + c.2 + 1
    omega
  · rw [if_neg h12] at h
    obtain ⟨rfl, -⟩ := replaceYM_some _ _ _ h
    show c.1 * 12 + (c.2 + 1) = c.1 * 12 + c.2 + 1
    omega

lemma nextMonth_valid (c nxt : Nat × Nat) (h : nextMonth c = some nxt) :
    1 ≤ nxt.1 ∧ nxt.1 ≤ 9999 ∧ 1 ≤ nxt.2 ∧ nxt.2 ≤ 12 := by
  rw [nextMonth] at h
  by_cases h12 : c.2 = 12
  · rw [if_pos h12] at h
    obtain ⟨rfl, hv⟩ := replaceYM_some _ _ _ h
    exact hv
  · rw [if_neg h12] at h
    obtain ⟨rfl, hv⟩ := replaceYM_some _ _ _ h
    exact hv

/-- On a valid month the rollover step raises exactly at the
`datetime` maximum, December 9999. -/
lemma nextMonth_eq_none (c : Nat × Nat)
    (hc : 1 ≤ c.1 ∧ c.1 ≤ 9999 ∧ 1 ≤ c.2 ∧ c.2 ≤ 12)
    (h : nextMonth c = none) : c = (9999, 12) := by
  obtain ⟨cy, cm⟩ := c
  simp only at hc
  rw [nextMonth] at h
  dsimp only at h
  by_cases h12 : cm = 12
  · rw [if_pos h12, replaceYM] at h
    by_cases hcnd : 1 ≤ cy + 1 ∧ cy + 1 ≤ 9999 ∧ 1 ≤ 1 ∧ (1 : Nat) ≤ 12
    · rw [if_pos hcnd] at h
      exact Option.noConfusion h
    · simp only [Prod.mk.injEq]
      constructor <;> omega
  · rw [if_neg h12, replaceYM] at h
    by_cases hcnd : 1 ≤ cy ∧ cy ≤ 9999 ∧ 1 ≤ cm + 1 ∧ cm + 1 ≤ 12
    · rw [if_pos hcnd] at h
      exact Option.noConfusion h
    · exfalso
      omega

lemma nextMonth_9999 : nextMonth (9999, 12) = none := by decide

/-- On valid months the `monthIdx` comparison agrees with the
lexicographic `datetime` comparison used by `while cur <= stop`. -/
lemma monthIdx_le_iff (a b : Nat × Nat)
    (ha : 1 ≤ a.2 ∧ a.2 ≤ 12) (hb : 1 ≤ b.2 ∧ b.2 ≤ 12) :
    monthIdx a ≤ monthIdx b ↔ (a.1 < b.1 ∨ (a.1 = b.1 ∧ a.2 ≤ b.2)) := by
  simp only [monthIdx]
  omega

/-- Loop of `generate_months` (lines 61-66): `while cur <= stop` append
`cur.strftime("%Y%m")` and step to the next month.  The guard is written
through `monthIdx`, which on the valid months the source constructs
coincides with the `datetime` order (`monthIdx_le_iff`).  A raising step
aborts the whole call (the exception propagates out of the loop and the
appended list is lost), so it yields `none`. -/
def monthsFromYM (cur stop : Nat × Nat) : Option (List String) :=
  if h : monthIdx cur ≤ monthIdx stop then
    match hn : nextMonth cur with
    | none => none
    | some nxt => (monthsFromYM nxt stop).map fun l => ymFormat cur :: l
  else some []
termination_by monthIdx stop + 1 - monthIdx cur
decreasing_by
  rw [monthIdx_nextMonth cur nxt hn]
  omega

/-- Embedding of `generate_months(start, end)`; a `ValueError` from the
`datetime` parse or from the rollover step is embedded as `none`. -/
def generate_months (start stop : String) : Option (List String) :=
  match parseMonth start, parseMonth stop with
  | some cur, some stp => monthsFromYM cur stp
  | _, _ => none

/-- Inverse of `monthIdx` on valid months. -/
def ofIdx (k : Nat) : Nat × Nat := ((k - 1) / 12, (k - 1) % 12 + 1)

lemma ofIdx_monthIdx (c : Nat × Nat) (hc : 1 ≤ c.2 ∧ c.2 ≤ 12) :
    ofIdx (monthIdx c) = c := by
  obtain ⟨y, m⟩ := c
  simp only [ofIdx, monthIdx, Prod.mk.injEq] at *
  constructor <;> omega

lemma parseMonth_valid (s : String) (c : Nat × Nat)
    (h : parseMonth s = some c) :
    1 ≤ c.1 ∧ c.1 ≤ 9999 ∧ 1 ≤ c.2 ∧ c.2 ≤ 12 := by
  unfold parseMonth at h
  rcases hy : intNat? (strSlice s 0 4) with - | y
  · rw [hy] at h
    exact Option.noConfusion h
  rcases hm : intNat? (strSlice s 4 6) with - | m
  · rw [hy, hm] at h
    exact Option.noConfusion h
  rw [hy, hm] at h
  simp only at h
  split at h
  · cases h
    simp_all
  · exact Option.noConfusion h

/-- Characterization: when the window does not end at the `datetime`
maximum `999912`, `monthsFromYM cur stop` is the map of `ymFormat` over
the consecutive month indices from `cur` to `stop` inclusive; when it
does (and the guard holds at least once), the rollover step out of
`999912` raises and nothing is returned. -/
lemma monthsFromYM_eq (stop : Nat × Nat)
    (hstop : 1 ≤ stop.1 ∧ stop.1 ≤ 9999 ∧ 1 ≤ stop.2 ∧ stop.2 ≤ 12) :
    ∀ (n : Nat) (cur : Nat × Nat), monthIdx stop + 1 - monthIdx cur = n →
      1 ≤ cur.1 ∧ cur.1 ≤ 9999 ∧ 1 ≤ cur.2 ∧ cur.2 ≤ 12 →
      monthsFromYM cur stop =
        if monthIdx cur ≤ monthIdx stop ∧ stop = (9999, 12) then none
        else some ((List.range (monthIdx stop + 1 - monthIdx cur)).map
          (fun i => ymFormat (ofIdx (monthIdx cur + i)))) := by
  intro n
  induction n with
  | zero =>
    intro cur hn _
    rw [monthsFromYM, dif_neg (by omega),
      if_neg (by rintro ⟨hle, -⟩; omega), hn]
    simp
  | succ n ih =>
    intro cur hn hv
    have hle : monthIdx cur ≤ monthIdx stop := by omega
    rw [monthsFromYM, dif_pos hle]
    split
    · next hnone =>
      have hcur : cur = (9999, 12) := nextMonth_eq_none cur hv hnone
      have hc12 : monthIdx cur = 9999 * 12 + 12 := by rw [hcur]; rfl
      have hstopeq : stop = (9999, 12) := by
        obtain ⟨sy, sm⟩ := stop
        simp only at hstop
        have hsidx : monthIdx (sy, sm) = sy * 12 + sm := rfl
        rw [hsidx] at hle
        simp only [Prod.mk.injEq]
        constructor <;> omega
      rw [if_pos ⟨hle, hstopeq⟩]
    · next nxt hsome =>
      have hidx : monthIdx nxt = monthIdx cur + 1 :=
        monthIdx_nextMonth cur nxt hsome
      have hrec := ih nxt (by omega) (nextMonth_valid cur nxt hsome)
      rw [hrec]
      by_cases hstop9 : stop = (9999, 12)
      · have hnle : monthIdx nxt ≤ monthIdx stop := by
          by_contra hgt
          have h1 : monthIdx cur = monthIdx stop := by omega
          have h2 := ofIdx_monthIdx cur ⟨hv.2.2.1, hv.2.2.2⟩
          have h3 := ofIdx_monthIdx stop ⟨hstop.2.2.1, hstop.2.2.2⟩
          have hcureq : cur = stop := by rw [← h2, ← h3, h1]
          rw [hcureq, hstop9, nextMonth_9999] at hsome
          exact Option.noConfusion hsome
        rw [if_pos ⟨hnle, hstop9⟩, if_pos ⟨hle, hstop9⟩]
        rfl
      · rw [if_neg fun hcnd => hstop9 hcnd.2, if_neg fun hcnd => hstop9 hcnd.2]
        refine congrArg some ?_
        rw [hn, show monthIdx stop + 1 - monthIdx nxt = n from by omega,
          List.range_succ_eq_map, List.map_cons, List.map_map]
        refine congrArg₂ _ ?_ ?_
        · rw [Nat.add_zero, ofIdx_monthIdx cur ⟨hv.2.2.1, hv.2.2.2⟩]
        · refine List.map_congr_left fun i _ => ?_
          simp only [Function.comp_apply, hidx]
          refine congrArg _ (congrArg _ ?_)
          omega

lemma generate_months_eq (start stop : String) (a b : Nat × Nat)
    (ha : parseMonth start = some a) (hb : parseMonth stop = some b) :
    generate_months start stop =
      if monthIdx a ≤ monthIdx b ∧ b = (9999, 12) then none
      else some ((List.range (monthIdx b + 1 - monthIdx a)).map
        (fun i => ymFormat (ofIdx (monthIdx a + i)))) := by
  have hva := parseMonth_valid start a ha
  have hvb := parseMonth_valid stop b hb
  have h1 : generate_months start stop = monthsFromYM a b := by
    unfold generate_months
    rw [ha, hb]
  rw [h1, monthsFromYM_eq b hvb (monthIdx b + 1 - monthIdx a) a rfl hva]

/-- C9 (counterexample): for a window ending at `999912` with
start ≤ end, the loop body appends `"999912"` and then runs
`cur.replace(year=10000, month=1)`, which raises `ValueError`
(`datetime` years are capped at 9999) — the exception propagates and
`generate_months` returns nothing at all, rather than the inclusive
month sequence without error that the claim asserts for every
well-formed window. -/
theorem generate_months_december_9999 :
    generate_months "999912" "999912" = none ∧
      generate_months "999911" "999912" = none := by
  constructor
  · rw [generate_months_eq "999912" "999912" (9999, 12) (9999, 12)
      (by decide) (by decide), if_pos ⟨by decide, rfl⟩]
  · rw [generate_months_eq "999911" "999912" (9999, 11) (9999, 12)
      (by decide) (by decide), if_pos ⟨by decide, rfl⟩]

/-- C9 (amended): for well-formed month keys whose end month is not the
`datetime` maximum `999912`, `generate_months` returns the ordered,
gap-free inclusive sequence of month keys from start to end — the image
of the consecutive month indices under the `YYYYMM` rendering, which
steps one calendar month at a time and rolls December into January; and
for every start > end (including `999912` itself) it returns the empty
sequence without raising, since no rollover step runs; e.g.
`generate_months 202411 202502 = [202411, 202412, 202501, 202502]`.
Windows ending at `999912` with start ≤ end raise instead (see the
counterexample). -/
theorem generate_months_spec (start stop : String) (a b : Nat × Nat)
    (ha : parseMonth start = some a) (hb : parseMonth stop = some b) :
    (b ≠ (9999, 12) →
      generate_months start stop =
        some ((List.range (monthIdx b + 1 - monthIdx a)).map
          (fun i => ymFormat (ofIdx (monthIdx a + i))))) ∧
      (monthIdx b < monthIdx a → generate_months start stop = some []) ∧
      generate_months "202411" "202502" =
        some ["202411", "202412", "202501", "202502"] := by
  refine ⟨?_, ?_, ?_⟩
  · intro hb9
    rw [generate_months_eq start stop a b ha hb,
      if_neg fun hcnd => hb9 hcnd.2]
  · intro hlt
    rw [generate_months_eq start stop a b ha hb,
      if_neg (by rintro ⟨hle, -⟩; omega),
      show monthIdx b + 1 - monthIdx a = 0 from by omega]
    simp
  · rw [generate_months_eq "202411" "202502" (2024, 11) (2025, 2)
      (by decide) (by decide),
      if_neg (by rintro ⟨-, h⟩; exact absurd h (by decide))]
    decide

/-- Witness for `generate_months_spec` at the keys `202502 > 202411`,
exercising the empty-result branch and, via the concrete example, the
full-list branch. -/
theorem generate_months_spec_witness :
    (((2024, 11) : Nat × Nat) ≠ (9999, 12) →
      generate_months "202502" "202411" =
        some ((List.range (monthIdx (2024, 11) + 1 - monthIdx (2025, 2))).map
          (fun i => ymFormat (ofIdx (monthIdx (2025, 2) + i))))) ∧
      (monthIdx (2024, 11) < monthIdx (2025, 2) →
        generate_months "202502" "202411" = some []) ∧
      generate_months "202411" "202502" =
        some ["202411", "202412", "202501", "202502"] :=
  generate_months_spec "202502" "202411" (2025, 2) (2024, 11)
    (by decide) (by decide)

/-! ## build_date_catalog.py — DateAssigner and CatalogStore

Catalog rows are the dicts produced by `assign_dates` (lines 99-119),
with all four fields rendered as strings exactly as the source stores
them in the CSV.
-/

structure Row where
  date : String
  yyyymm : String
  image_id : String
  filename : String
deriving DecidableEq

/-- Leap-year rule of the proleptic Gregorian calendar used by
`datetime.date`. -/
def isLeapYear (y : Nat) : Bool := (y % 4 = 0 && y % 100 != 0) || y % 400 = 0

/-- Number of days of month `m` of year `y`, as validated by
`datetime.date`. -/
def daysInMonth (y m : Nat) : Nat :=
  if m = 2 then (if isLeapYear y then 29 else 28)
  else if m = 4 ∨ m = 6 ∨ m = 9 ∨ m = 11 then 30
  else 31

/-- Constructor `date(year, month, day)`: validates
`1 <= year <= 9999`, `1 <= month <= 12`, `1 <= day <= daysInMonth`;
a `ValueError` is embedded as `none`. -/
def mkDate (y m d : Nat) : Option (Nat × Nat × Nat) :=
  if 1 ≤ y ∧ y ≤ 9999 ∧ 1 ≤ m ∧ m ≤ 12 ∧ 1 ≤ d ∧ d ≤ daysInMonth y m then
    some (y, m, d)
  else none

/-- Rendering `d.isoformat()`, `YYYY-MM-DD`. -/
def isoformat (d : Nat × Nat × Nat) : String :=
  pad4 d.1 ++ "-" ++ pad2 d.2.1 ++ "-" ++ pad2 d.2.2

/-- Embedding of `assign_dates(yyyymm, image_ids)` (lines 99-119):
position `p` (1-based, here `i + 1` over `enumerate`) receives
`day = n - p + 1`; the `int(...)` parse of the month key and the
`date(...)` construction raise on bad input, embedded as `none`. -/
def assign_dates (yyyymm : String) (image_ids : List String) : Option (List Row) :=
  match intNat? (strSlice yyyymm 0 4), intNat? (strSlice yyyymm 4 6) with
  | some year, some month =>
    let n := image_ids.length
    image_ids.enum.mapM fun p =>
      (mkDate year month (n - (p.1 + 1) + 1)).map fun d =>
        { date := isoformat d, yyyymm := yyyymm, image_id := p.2,
          filename := yyyymm ++ "_" ++ p.2 ++ ".jpg" }
  | _, _ => none

/-! ### CatalogStore merge (lines 207-212 of `main`)

`all_rows` is a Python dict keyed by `(yyyymm, image_id)`; it is embedded
as an association list with dict semantics: lookup by key, insert
replaces in place or appends, and the purge loop is a filter.
-/

/-- Entry key `(row["yyyymm"], row["image_id"])`. -/
def rowKey (r : Row) : String × String := (r.yyyymm, r.image_id)

/-- Purge loop (lines 208-210): delete every record of month `m`. -/
def dictDelMonth (d : List ((String × String) × Row)) (m : String) :
    List ((String × String) × Row) :=
  d.filter fun kv => kv.1.1 ≠ m

/-- Python dict assignment `all_rows[k] = row`: replace the entry with
key `k` in place if present, else append. -/
def dictInsert (d : List ((String × String) × Row)) (k : String × String)
    (v : Row) : List ((String × String) × Row) :=
  if d.any (fun kv => kv.1 = k) then
    d.map fun kv => if kv.1 = k then (k, v) else kv
  else d ++ [(k, v)]

/-- Merge of a freshly re-indexed month (lines 207-212): purge the month,
then insert each new row keyed by `(yyyymm, image_id)`. -/
def merge_month (d : List ((String × String) × Row)) (m : String)
    (new_rows : List Row) : List ((String × String) × Row) :=
  new_rows.foldl (fun d r => dictInsert d (rowKey r) r) (dictDelMonth d m)

/-! ### CatalogStore write (`write_csv`, lines 134-139)

`write_csv` sorts the rows by the `date` field (Python `sorted` is a
stable sort; `List.mergeSort` is the stable sort with the same
specification) and writes header plus rows into the file opened with
mode `"w"`.  Opening with `"w"` truncates the file at once; the
observable on-disk contents are therefore: the old contents (before the
call), the empty file (after the open), and the header plus each prefix
of the rows.  `write_csv_states` lists those contents in order.
-/

/-- Comparison used by `sorted(rows, key=lambda r: r["date"])`. -/
def csvLe (a b : Row) : Bool := a.date ≤ b.date

/-- Header line written by `writer.writeheader()` (the `csv` module
terminates lines with CRLF). -/
def csvHeader : String := "date,yyyymm,image_id,filename\r\n"

/-- One CSV record as written by `writer.writerows` (the fields produced
by this program contain no delimiter, quote or newline characters, so
minimal quoting writes them verbatim). -/
def csvLine (r : Row) : String :=
  r.date ++ "," ++ r.yyyymm ++ "," ++ r.image_id ++ "," ++ r.filename ++ "\r\n"

/-- File contents after the header and the first `k` sorted rows have
been written. -/
def write_csv_stage (rows : List Row) (k : Nat) : String :=
  (((rows.mergeSort csvLe).take k).map csvLine).foldl (· ++ ·) csvHeader

/-- Final file contents produced by `write_csv`: header plus all rows
sorted ascending by `date`. -/
def write_csv_content (rows : List Row) : String :=
  write_csv_stage rows rows.length

/-- Sequence of observable on-disk contents of the target file during
`write_csv`: the prior contents, then the truncated file produced by
`csv_path.open("w")`, then header and row prefixes, ending in the full
serialization. -/
def write_csv_states (old : String) (rows : List Row) : List String :=
  old :: "" :: (List.range (rows.length + 1)).map (write_csv_stage rows)

/-- Interpretation of the claim "an interruption during writing never
corrupts a previously valid catalog file": every observable intermediate
content is either the prior contents or the completed new contents (what
write-to-temporary-then-atomic-replace guarantees). -/
def write_csv_preserves (old : String) (rows : List Row) : Prop :=
  ∀ s ∈ write_csv_states old rows, s = old ∨ s = write_csv_content rows

/-- C4 (counterexample): `write_csv` opens the destination with mode
`"w"`, which truncates the existing file in place — there is no temporary
file and no atomic replace.  Interrupting right after the open leaves an
empty file that is neither the prior valid catalog nor the new contents. -/
theorem write_csv_truncates :
    ¬ write_csv_preserves
      "date,yyyymm,image_id,filename\r\n2025-01-01,202501,A,202501_A.jpg\r\n"
      [] := by
  intro h
  have h2 := h "" (List.mem_cons_of_mem _ (List.mem_cons_self _ _))
  have hc : write_csv_content [] = csvHeader := by
    rw [write_csv_content, write_csv_stage, List.mergeSort_nil]
    rfl
  rcases h2 with h2 | h2
  · exact absurd h2 (by decide)
  · rw [hc] at h2
    exact absurd h2 (by decide)

/-- C4 (amended): `write_csv` serializes the full mapping sorted
ascending by the `date` field (the final file content is the header
followed by a date-sorted permutation of the rows), but it writes by
truncating the destination in place, so the empty file is among the
observable intermediate contents — an interruption can destroy a
previously valid catalog. -/
theorem write_csv_spec (old : String) (rows : List Row) :
    (write_csv_states old rows).getLast? = some (write_csv_content rows) ∧
      (rows.mergeSort csvLe).Pairwise (fun a b => a.date ≤ b.date) ∧
      (rows.mergeSort csvLe).Perm rows ∧
      "" ∈ write_csv_states old rows := by
  refine ⟨?_, ?_, List.mergeSort_perm rows csvLe, ?_⟩
  · have h1 : write_csv_states old rows
        = (old :: "" :: (List.range rows.length).map (write_csv_stage rows))
          ++ [write_csv_stage rows rows.length] := by
      simp [write_csv_states, List.range_succ]
    rw [h1, List.getLast?_concat]
    rfl
  · have hs := @List.sorted_mergeSort Row csvLe
      (fun a b c hab hbc => by
        simp only [csvLe, decide_eq_true_eq] at *
        exact le_trans hab hbc)
      (fun a b => by
        simp only [csvLe, Bool.or_eq_true, decide_eq_true_eq]
        exact le_total _ _)
      rows
    exact hs.imp fun {a b} hab => by
      simpa only [csvLe, decide_eq_true_eq] using hab
  · exact List.mem_cons_of_mem _ (List.mem_cons_self _ _)

lemma foldl_dictInsert_fresh (L : List Row) :
    ∀ (acc : List ((String × String) × Row)),
      (∀ r ∈ L, ∀ kv ∈ acc, kv.1 ≠ rowKey r) →
      (L.map rowKey).Nodup →
      L.foldl (fun d r => dictInsert d (rowKey r) r) acc
        = acc ++ L.map (fun r => (rowKey r, r)) := by
  induction L with
  | nil => intro acc _ _; simp
  | cons a L ih =>
    intro acc hfresh hnd
    have hnd' : rowKey a ∉ L.map rowKey ∧ (L.map rowKey).Nodup := by
      rw [List.map_cons, List.nodup_cons] at hnd
      exact hnd
    have hins : dictInsert acc (rowKey a) a = acc ++ [(rowKey a, a)] := by
      rw [dictInsert, if_neg]
      simp only [List.any_eq_true, decide_eq_true_eq, not_exists]
      intro kv h
      exact hfresh a (List.mem_cons_self _ _) kv h.1 h.2
    have hfresh2 : ∀ r ∈ L, ∀ kv ∈ acc ++ [(rowKey a, a)], kv.1 ≠ rowKey r := by
      intro r hr kv hkv
      rcases List.mem_append.mp hkv with hkv | hkv
      · exact hfresh r (List.mem_cons_of_mem _ hr) kv hkv
      · have hkva : kv = (rowKey a, a) := by simpa using hkv
        subst hkva
        intro hk
        have hk' : rowKey a = rowKey r := hk
        exact hnd'.1 (hk' ▸ List.mem_map.mpr ⟨r, hr, rfl⟩)
    rw [List.foldl_cons, hins, ih (acc ++ [(rowKey a, a)]) hfresh2 hnd'.2]
    simp

/-- C5: merging a freshly re-indexed month first purges all records of
that month key and then inserts the new batch, so afterwards the records
of month `m` are exactly the new rows (zero duplicates, zero stale rows)
and the records of every other month are untouched; distinct keys stay
distinct. -/
theorem merge_month_spec (d : List ((String × String) × Row)) (m : String)
    (new_rows : List Row)
    (hmnth : ∀ r ∈ new_rows, r.yyyymm = m)
    (hnd : (new_rows.map (·.image_id)).Nodup) :
    (merge_month d m new_rows).filter (fun kv => kv.1.1 = m)
        = new_rows.map (fun r => (rowKey r, r)) ∧
      (merge_month d m new_rows).filter (fun kv => kv.1.1 ≠ m)
        = d.filter (fun kv => kv.1.1 ≠ m) ∧
      ((d.map (fun kv => kv.1)).Nodup →
        ((merge_month d m new_rows).map (fun kv => kv.1)).Nodup) := by
  have hkeys : (new_rows.map rowKey).Nodup := by
    have h2 : ((new_rows.map rowKey).map Prod.snd).Nodup := by
      rw [List.map_map]
      exact hnd
    exact h2.of_map
  have hfresh : ∀ r ∈ new_rows, ∀ kv ∈ dictDelMonth d m, kv.1 ≠ rowKey r := by
    intro r hr kv hkv hk
    have h1 : kv.1.1 ≠ m := by
      rw [dictDelMonth] at hkv
      simpa using (List.mem_filter.mp hkv).2
    exact h1 (by rw [hk, rowKey]; exact hmnth r hr)
  have heq : merge_month d m new_rows
      = dictDelMonth d m ++ new_rows.map (fun r => (rowKey r, r)) :=
    foldl_dictInsert_fresh new_rows (dictDelMonth d m) hfresh hkeys
  refine ⟨?_, ?_, ?_⟩
  · rw [heq, List.filter_append]
    have h1 : (dictDelMonth d m).filter (fun kv => kv.1.1 = m) = [] := by
      rw [List.filter_eq_nil_iff]
      intro kv hkv
      have h' : kv.1.1 ≠ m := by
        rw [dictDelMonth] at hkv
        simpa using (List.mem_filter.mp hkv).2
      simpa using h'
    have h2 : (new_rows.map (fun r => (rowKey r, r))).filter
        (fun kv => kv.1.1 = m) = new_rows.map (fun r => (rowKey r, r)) := by
      rw [List.filter_eq_self]
      intro kv hkv
      obtain ⟨r, hr, rfl⟩ := List.mem_map.mp hkv
      simpa [rowKey] using hmnth r hr
    rw [h1, h2, List.nil_append]
  · rw [heq, List.filter_append]
    have h1 : (dictDelMonth d m).filter (fun kv => kv.1.1 ≠ m)
        = dictDelMonth d m := by
      rw [List.filter_eq_self]
      intro kv hkv
      rw [dictDelMonth] at hkv
      exact (List.mem_filter.mp hkv).2
    have h2 : (new_rows.map (fun r => (rowKey r, r))).filter
        (fun kv => kv.1.1 ≠ m) = [] := by
      rw [List.filter_eq_nil_iff]
      intro kv hkv
      obtain ⟨r, hr, rfl⟩ := List.mem_map.mp hkv
      simpa [rowKey] using hmnth r hr
    rw [h1, h2, List.append_nil]
    rfl
  · intro hold
    rw [heq, List.map_append, List.nodup_append]
    refine ⟨?_, ?_, ?_⟩
    · exact hold.sublist (List.Sublist.map _ (List.filter_sublist d))
    · rw [List.map_map]
      exact hkeys
    · intro k hk1 hk2
      obtain ⟨kv, hkv, rfl⟩ := List.mem_map.mp hk1
      have hne : kv.1.1 ≠ m := by
        rw [dictDelMonth] at hkv
        simpa using (List.mem_filter.mp hkv).2
      rw [List.map_map] at hk2
      obtain ⟨r, hr, hkr⟩ := List.mem_map.mp hk2
      apply hne
      rw [← hkr]
      exact hmnth r hr

/-- Witness for `merge_month_spec`: a catalog holding months `202412` and
`202501`, re-merged with two fresh `202501` rows. -/
theorem merge_month_spec_witness :
    (merge_month
        [(("202412", "X"), Row.mk "2024-12-01" "202412" "X" "202412_X.jpg"),
          (("202501", "B"), Row.mk "2025-01-01" "202501" "B" "202501_B.jpg")]
        "202501"
        [Row.mk "2025-01-02" "202501" "B" "202501_B.jpg",
          Row.mk "2025-01-01" "202501" "C" "202501_C.jpg"]).filter
        (fun kv => kv.1.1 = "202501")
        = [Row.mk "2025-01-02" "202501" "B" "202501_B.jpg",
            Row.mk "2025-01-01" "202501" "C" "202501_C.jpg"].map
          (fun r => (rowKey r, r)) ∧
      (merge_month
        [(("202412", "X"), Row.mk "2024-12-01" "202412" "X" "202412_X.jpg"),
          (("202501", "B"), Row.mk "2025-01-01" "202501" "B" "202501_B.jpg")]
        "202501"
        [Row.mk "2025-01-02" "202501" "B" "202501_B.jpg",
          Row.mk "2025-01-01" "202501" "C" "202501_C.jpg"]).filter
        (fun kv => kv.1.1 ≠ "202501")
        = [(("202412", "X"), Row.mk "2024-12-01" "202412" "X" "202412_X.jpg"),
            (("202501", "B"), Row.mk "2025-01-01" "202501" "B" "202501_B.jpg")].filter
          (fun kv => kv.1.1 ≠ "202501") ∧
      (([(("202412", "X"), Row.mk "2024-12-01" "202412" "X" "202412_X.jpg"),
          (("202501", "B"), Row.mk "2025-01-01" "202501" "B" "202501_B.jpg")].map
          (fun kv => kv.1)).Nodup →
        ((merge_month
          [(("202412", "X"), Row.mk "2024-12-01" "202412" "X" "202412_X.jpg"),
            (("202501", "B"), Row.mk "2025-01-01" "202501" "B" "202501_B.jpg")]
          "202501"
          [Row.mk "2025-01-02" "202501" "B" "202501_B.jpg",
            Row.mk "2025-01-01" "202501" "C" "202501_C.jpg"]).map
          (fun kv => kv.1)).Nodup) :=
  merge_month_spec
    [(("202412", "X"), Row.mk "2024-12-01" "202412" "X" "202412_X.jpg"),
      (("202501", "B"), Row.mk "2025-01-01" "202501" "B" "202501_B.jpg")]
    "202501"
    [Row.mk "2025-01-02" "202501" "B" "202501_B.jpg",
      Row.mk "2025-01-01" "202501" "C" "202501_C.jpg"]
    (by decide) (by decide)

lemma mapM_option_eq_map {α β : Type} (f : α → Option β) (g : α → β)
    (l : List α) (h : ∀ x ∈ l, f x = some (g x)) :
    l.mapM f = some (l.map g) := by
  induction l with
  | nil => rfl
  | cons a l ih =>
    rw [List.mapM_cons, h a (List.mem_cons_self _ _),
      ih fun x hx => h x (List.mem_cons_of_mem _ hx)]
    rfl

lemma range_map_sub_eq_reverse (n : Nat) :
    (List.range n).map (fun i => n - i)
      = ((List.range n).map (fun i => i + 1)).reverse := by
  induction n with
  | zero => simp
  | succ n ih =>
    conv_lhs => rw [List.range_succ_eq_map]
    conv_rhs => rw [List.range_succ]
    rw [List.map_append, List.reverse_append, List.map_cons, List.map_map]
    have hfun : ((fun i => n + 1 - i) ∘ Nat.succ) = fun i => n - i := by
      funext i
      simp only [Function.comp_apply]
      omega
    rw [hfun, ih]
    simp

/-- C6 (counterexample): the claim quantifies over every ordered id list
of length `n`, but for `n` exceeding the month's day count the source
raises (`date(2025, 1, 32)` is a `ValueError` — January has 31 days), so
no records are produced at all: `assign_dates` on 32 ids for `202501`
yields no record list, not a bijection onto `{1..32}`. -/
theorem assign_dates_overflow :
    assign_dates "202501" (List.replicate 32 "A") = none := by decide

/-- C6 (amended): for a well-formed month key and an id list whose length
`n` does not exceed the number of days of that month, `assign_dates`
produces one record per position; the record dates are
`isoformat (y, m, n - i)` for 0-based position `i` — so position 1
receives day `n` and position `n` receives day 1 — and the assigned days
`n - i` are a permutation of `{1..n}` (a bijection onto the day range). -/
theorem assign_dates_spec (yyyymm : String) (ids : List String) (y m : Nat)
    (hy : intNat? (strSlice yyyymm 0 4) = some y)
    (hm : intNat? (strSlice yyyymm 4 6) = some m)
    (hvy : 1 ≤ y ∧ y ≤ 9999) (hvm : 1 ≤ m ∧ m ≤ 12)
    (hn : ids.length ≤ daysInMonth y m) :
    ∃ rows, assign_dates yyyymm ids = some rows ∧
      rows.length = ids.length ∧
      rows.map (·.date)
        = (List.range ids.length).map
          (fun i => isoformat (y, m, ids.length - i)) ∧
      ((List.range ids.length).map (fun i => ids.length - i)).Perm
        ((List.range ids.length).map (fun i => i + 1)) := by
  have hmk : ∀ p ∈ ids.enum,
      ((mkDate y m (ids.length - (p.1 + 1) + 1)).map fun d =>
          Row.mk (isoformat d) yyyymm p.2 (yyyymm ++ "_" ++ p.2 ++ ".jpg"))
        = some (Row.mk (isoformat (y, m, ids.length - (p.1 + 1) + 1)) yyyymm
            p.2 (yyyymm ++ "_" ++ p.2 ++ ".jpg")) := by
    intro p hp
    obtain ⟨i, x⟩ := p
    have hi := (List.mem_enum hp).1
    rw [mkDate, if_pos]
    · rfl
    · refine ⟨hvy.1, hvy.2, hvm.1, hvm.2, by omega, by omega⟩
  have hopened : assign_dates yyyymm ids
      = ids.enum.mapM fun p =>
          (mkDate y m (ids.length - (p.1 + 1) + 1)).map fun d =>
            Row.mk (isoformat d) yyyymm p.2 (yyyymm ++ "_" ++ p.2 ++ ".jpg") := by
    unfold assign_dates
    rw [hy, hm]
  refine ⟨ids.enum.map fun p =>
      Row.mk (isoformat (y, m, ids.length - (p.1 + 1) + 1)) yyyymm p.2
        (yyyymm ++ "_" ++ p.2 ++ ".jpg"), ?_, ?_, ?_, ?_⟩
  · rw [hopened]
    exact mapM_option_eq_map _ _ _ hmk
  · rw [List.length_map, List.enum_length]
  · calc ((ids.enum.map fun p =>
          Row.mk (isoformat (y, m, ids.length - (p.1 + 1) + 1)) yyyymm p.2
            (yyyymm ++ "_" ++ p.2 ++ ".jpg")).map (·.date))
        = (ids.enum.map Prod.fst).map
            (fun i => isoformat (y, m, ids.length - (i + 1) + 1)) := by
          rw [List.map_map, List.map_map]
          rfl
      _ = (List.range ids.length).map
            (fun i => isoformat (y, m, ids.length - (i + 1) + 1)) := by
          rw [List.enum_map_fst]
      _ = (List.range ids.length).map
            (fun i => isoformat (y, m, ids.length - i)) := by
          refine List.map_congr_left fun i hi => ?_
          have hi' := List.mem_range.mp hi
          have he : ids.length - (i + 1) + 1 = ids.length - i := by omega
          rw [he]
  · rw [range_map_sub_eq_reverse]
    exact List.reverse_perm _

/-- Witness for `assign_dates_spec` at month `202501` with three ids:
days assigned are `[3, 2, 1]`. -/
theorem assign_dates_spec_witness :
    ∃ rows, assign_dates "202501" ["A", "B", "C"] = some rows ∧
      rows.length = 3 ∧
      rows.map (·.date)
        = (List.range 3).map (fun i => isoformat (2025, 1, 3 - i)) ∧
      ((List.range 3).map (fun i => 3 - i)).Perm
        ((List.range 3).map (fun i => i + 1)) :=
  assign_dates_spec "202501" ["A", "B", "C"] 2025 1 (by decide) (by decide)
    (by decide) (by decide) (by decide)

/-! ## scrape_bing.py — Fetcher/Downloader and the resumable main loop

The network is an oracle (`Net`): each remote resource maps to the value
the source's HTTP helpers produce after retries — `none` embeds both a
404 and exhausted retries of `get_with_retry`.  A payload carries what
the validation observes: its byte length and whether it starts with the
JPEG magic `\xff\xd8`.  The output directory is a mutable map from
filename to payload.  The `Attempt` log records which remote download
sources were consulted, in order, for the fallback-order claims.
-/

structure Payload where
  size : Nat
  jpegMagic : Bool
deriving DecidableEq

structure Net where
  imageIds : String → List String
  cdnResp : String → String → Option Payload
  detailUrl4k : String → Option String
  urlResp : String → Option Payload

inductive Attempt where
  | cdn (yyyymm image_id : String)
  | detail (image_id : String)
  | url (u : String)
deriving DecidableEq

/-- Command-line flags of the scraper that steer the download strategy. -/
structure Args where
  cdn_first : Bool
  direct_only : Bool
deriving DecidableEq

/-- Writing `dest.write_bytes(content)`. -/
def diskWrite (disk : String → Option Payload) (p : String) (c : Payload) :
    String → Option Payload :=
  fun q => if q = p then some c else disk q

/-- Deleting `dest.unlink()` (and a no-op when the file is absent, which
matches the guarded `if dest.exists(): dest.unlink()`). -/
def diskErase (disk : String → Option Payload) (p : String) :
    String → Option Payload :=
  fun q => if q = p then none else disk q

/-- Local filename `f"{yyyymm}_{img_id}.jpg"` of one item. -/
def destName (yyyymm img_id : String) : String :=
  yyyymm ++ "_" ++ img_id ++ ".jpg"

/-- Embedding of `try_direct_cdn` (lines 111-124): returns success,
the updated disk, and the download source consulted.  The payload is
rejected unless it is at least 50 KB and starts with the JPEG magic;
only an accepted payload is written. -/
def try_direct_cdn (net : Net) (yyyymm img_id dest : String)
    (disk : String → Option Payload) :
    Bool × (String → Option Payload) × List Attempt :=
  match net.cdnResp yyyymm img_id with
  | none => (false, disk, [Attempt.cdn yyyymm img_id])
  | some c =>
    if c.size < 50000 ∨ c.jpegMagic = false then
      (false, disk, [Attempt.cdn yyyymm img_id])
    else (true, diskWrite disk dest c, [Attempt.cdn yyyymm img_id])

/-- Embedding of `download_url` (lines 140-150): rejects a payload under
50 KB; only an accepted payload is written. -/
def download_url (net : Net) (u dest : String)
    (disk : String → Option Payload) :
    Bool × (String → Option Payload) :=
  match net.urlResp u with
  | none => (false, disk)
  | some c =>
    if c.size < 50000 then (false, disk) else (true, diskWrite disk dest c)

/-- Strategy block of the item loop (lines 263-282): cdn-first (with
detail fallback unless `--direct-only`) or detail-first (with CDN tried
only when no detail URL is found). -/
def attemptDownload (net : Net) (args : Args) (yyyymm img_id dest : String)
    (disk : String → Option Payload) :
    Bool × (String → Option Payload) × List Attempt :=
  if args.cdn_first || args.direct_only then
    let r := try_direct_cdn net yyyymm img_id dest disk
    if !r.1 && !args.direct_only then
      match net.detailUrl4k img_id with
      | some dl_url =>
        let r2 := download_url net dl_url dest r.2.1
        (r2.1, r2.2, r.2.2 ++ [Attempt.detail img_id, Attempt.url dl_url])
      | none => (r.1, r.2.1, r.2.2 ++ [Attempt.detail img_id])
    else r
  else
    match net.detailUrl4k img_id with
    | some dl_url =>
      let r := download_url net dl_url dest disk
      (r.1, r.2, [Attempt.detail img_id, Attempt.url dl_url])
    | none =>
      let r := try_direct_cdn net yyyymm img_id dest disk
      (r.1, r.2.1, Attempt.detail img_id :: r.2.2)

/-- Running state of one scraper invocation: the three key-sets, the
output directory contents, and the run counters. -/
structure RunSt where
  done_months : Finset String
  done_images : Finset String
  failed_images : Finset String
  disk : String → Option Payload
  n_dl : Nat
  n_skip : Nat
  n_fail : Nat

/-- Item loop body (lines 246-294): skip when the file is already on disk
above 50 KB (line 252, marking it done), skip when the key is already in
`done_images`, otherwise attempt the download; on success the key joins
`done_images`, on failure it joins `failed_images` and any file at the
destination is removed. -/
def processItem (net : Net) (args : Args) (yyyymm img_id : String)
    (st : RunSt) : RunSt × List Attempt :=
  if ((st.disk (destName yyyymm img_id)).elim false fun c => c.size > 50000) then
    ({ st with
        n_skip := st.n_skip + 1
        done_images := insert (itemKey yyyymm img_id) st.done_images }, [])
  else if itemKey yyyymm img_id ∈ st.done_images then
    ({ st with n_skip := st.n_skip + 1 }, [])
  else if (attemptDownload net args yyyymm img_id (destName yyyymm img_id)
      st.disk).1 then
    ({ st with
        n_dl := st.n_dl + 1
        done_images := insert (itemKey yyyymm img_id) st.done_images
        disk := (attemptDownload net args yyyymm img_id (destName yyyymm img_id)
          st.disk).2.1 },
      (attemptDownload net args yyyymm img_id (destName yyyymm img_id)
        st.disk).2.2)
  else
    ({ st with
        n_fail := st.n_fail + 1
        failed_images := insert (itemKey yyyymm img_id) st.failed_images
        disk := diskErase
          (attemptDownload net args yyyymm img_id (destName yyyymm img_id)
            st.disk).2.1 (destName yyyymm img_id) },
      (attemptDownload net args yyyymm img_id (destName yyyymm img_id)
        st.disk).2.2)

/-- State snapshot passed to `save_state` (lines 239-241, 297-299):
the three key-sets as sorted lists. -/
structure Checkpoint where
  done_months : List String
  done_images : List String
  failed_images : List String
deriving DecidableEq

def saveState (st : RunSt) : Checkpoint :=
  ⟨st.done_months.sort (· ≤ ·), st.done_images.sort (· ≤ ·),
    st.failed_images.sort (· ≤ ·)⟩

/-- Marking a month complete: `done_months.add(yyyymm)`. -/
def monthDone (yyyymm : String) (st : RunSt) : RunSt :=
  { st with done_months := insert yyyymm st.done_months }

/-- Folding `processItem` over a month's image ids, accumulating the
attempt log. -/
def processItems (net : Net) (args : Args) (yyyymm : String)
    (ids : List String) (st : RunSt) : RunSt × List Attempt :=
  ids.foldl (fun acc img_id =>
    ((processItem net args yyyymm img_id acc.1).1,
      acc.2 ++ (processItem net args yyyymm img_id acc.1).2)) (st, [])

/-- Month loop body (lines 226-299): a month already in `done_months` is
skipped outright; an empty index listing marks the month done and
checkpoints; otherwise every item is processed, then the month is
unconditionally marked done and the state checkpointed. -/
def processMonth (net : Net) (args : Args) (yyyymm : String) (st : RunSt) :
    RunSt × List Attempt × List Checkpoint :=
  if yyyymm ∈ st.done_months then (st, [], [])
  else if (net.imageIds yyyymm).isEmpty then
    (monthDone yyyymm st, [], [saveState (monthDone yyyymm st)])
  else
    (monthDone yyyymm (processItems net args yyyymm (net.imageIds yyyymm) st).1,
      (processItems net args yyyymm (net.imageIds yyyymm) st).2,
      [saveState (monthDone yyyymm
        (processItems net args yyyymm (net.imageIds yyyymm) st).1)])

/-- Main loop of the scraper over a precomputed month list (lines
212-305), starting from the loaded (or reset) state with counters at
zero; the last component is the process exit code,
`0 if n_fail == 0 else 1` (line 305). -/
def scrape_main (net : Net) (args : Args) (months : List String)
    (disk0 : String → Option Payload) (st0 : ScrapeState) :
    RunSt × List Attempt × List Checkpoint × Nat :=
  let init : RunSt :=
    ⟨st0.done_months, st0.done_images, st0.failed_images, disk0, 0, 0, 0⟩
  let res := months.foldl (fun acc m =>
    ((processMonth net args m acc.1).1,
      acc.2.1 ++ (processMonth net args m acc.1).2.1,
      acc.2.2 ++ (processMonth net args m acc.1).2.2)) (init, [], [])
  (res.1, res.2.1, res.2.2, if res.1.n_fail = 0 then 0 else 1)

/-- C8: the reconciler exits 1 iff its missing set is non-empty and 0 iff
it is empty; the scraper exits 0 iff its failure count is zero and 1 iff
at least one download failed. -/
theorem exit_codes_spec (tm : String) (c : List CatRow) (p : String → Bool)
    (st : ScrapeState) (net : Net) (args : Args) (months : List String)
    (disk0 : String → Option Payload) (st0 : ScrapeState) :
    ((reconcile tm c p st).2 = 1 ↔ missingRows c p ≠ []) ∧
      ((reconcile tm c p st).2 = 0 ↔ missingRows c p = []) ∧
      ((scrape_main net args months disk0 st0).2.2.2 = 0 ↔
        (scrape_main net args months disk0 st0).1.n_fail = 0) ∧
      ((scrape_main net args months disk0 st0).2.2.2 = 1 ↔
        0 < (scrape_main net args months disk0 st0).1.n_fail) := by
  have hr : (reconcile tm c p st).2
      = if (missingRows c p).isEmpty then 0 else 1 := rfl
  have hs : (scrape_main net args months disk0 st0).2.2.2
      = if (scrape_main net args months disk0 st0).1.n_fail = 0 then 0
        else 1 := rfl
  refine ⟨?_, ?_, ?_, ?_⟩
  · rw [hr]
    rcases hmp : missingRows c p with - | ⟨r, rs⟩ <;> simp [hmp]
  · rw [hr]
    rcases hmp : missingRows c p with - | ⟨r, rs⟩ <;> simp [hmp]
  · rw [hs]
    by_cases hf : (scrape_main net args months disk0 st0).1.n_fail = 0 <;>
      simp [hf]
  · rw [hs]
    by_cases hf : (scrape_main net args months disk0 st0).1.n_fail = 0 <;>
      simp [hf]
    omega

/-- C10: a month not yet in `done_months` is, after `processMonth`,
unconditionally in `done_months` and in the emitted checkpoint — even
when items failed during the month, since the success of items is not
consulted; a month already in `done_months` is skipped outright: the
state is unchanged and no download source is consulted, so keys sitting
in `failed_images` (whose month the scraper always checkpoints into
`done_months`) are never retried by the scraper alone. -/
theorem scrape_month_checkpoint (net : Net) (args : Args) (yyyymm : String)
    (st : RunSt) :
    (yyyymm ∉ st.done_months →
      yyyymm ∈ (processMonth net args yyyymm st).1.done_months ∧
        ∃ cp, (processMonth net args yyyymm st).2.2 = [cp] ∧
          yyyymm ∈ cp.done_months) ∧
      (yyyymm ∈ st.done_months →
        processMonth net args yyyymm st = (st, [], [])) := by
  constructor
  · intro hnot
    rw [processMonth, if_neg hnot]
    by_cases hids : (net.imageIds yyyymm).isEmpty
    · rw [if_pos hids]
      exact ⟨Finset.mem_insert_self _ _,
        ⟨_, rfl, by simp [saveState, monthDone]⟩⟩
    · rw [if_neg hids]
      exact ⟨Finset.mem_insert_self _ _,
        ⟨_, rfl, by simp [saveState, monthDone]⟩⟩
  · intro hmem
    rw [processMonth, if_pos hmem]

/-- Witness for `scrape_month_checkpoint`: a fresh state processes month
`202501` and checkpoints it; a state already holding `202501` skips it
unchanged. -/
theorem scrape_month_checkpoint_witness :
    ("202501" ∈ (processMonth
          ⟨fun _ => ["A"], fun _ _ => none, fun _ => none, fun _ => none⟩
          ⟨false, false⟩ "202501"
          ⟨∅, ∅, ∅, fun _ => none, 0, 0, 0⟩).1.done_months ∧
        ∃ cp, (processMonth
          ⟨fun _ => ["A"], fun _ _ => none, fun _ => none, fun _ => none⟩
          ⟨false, false⟩ "202501"
          ⟨∅, ∅, ∅, fun _ => none, 0, 0, 0⟩).2.2 = [cp] ∧
          "202501" ∈ cp.done_months) ∧
      processMonth
          ⟨fun _ => ["A"], fun _ _ => none, fun _ => none, fun _ => none⟩
          ⟨false, false⟩ "202501"
          ⟨{"202501"}, ∅, ∅, fun _ => none, 0, 0, 0⟩
        = (⟨{"202501"}, ∅, ∅, fun _ => none, 0, 0, 0⟩, [], []) :=
  ⟨(scrape_month_checkpoint
      ⟨fun _ => ["A"], fun _ _ => none, fun _ => none, fun _ => none⟩
      ⟨false, false⟩ "202501" ⟨∅, ∅, ∅, fun _ => none, 0, 0, 0⟩).1
      (by simp),
    (scrape_month_checkpoint
      ⟨fun _ => ["A"], fun _ _ => none, fun _ => none, fun _ => none⟩
      ⟨false, false⟩ "202501"
      ⟨{"202501"}, ∅, ∅, fun _ => none, 0, 0, 0⟩).2 (by simp)⟩

/-- C3 (counterexample): under the detail-first strategy (no
`--cdn-first`, no `--direct-only`), when the detail page yields a URL
whose payload is below the 50 KB threshold (here 40000 bytes), the item
is marked failed WITHOUT the CDN secondary ever being attempted — the
attempt log is exactly `[detail, url]` — even though the CDN source
would have succeeded (60000 bytes with JPEG magic). -/
theorem detail_first_no_fallback :
    "202501/A" ∈ (processItem
        ⟨fun _ => ["A"], fun _ _ => some ⟨60000, true⟩,
          fun _ => some "u4k", fun _ => some ⟨40000, true⟩⟩
        ⟨false, false⟩ "202501" "A"
        ⟨∅, ∅, ∅, fun _ => none, 0, 0, 0⟩).1.failed_images ∧
      (processItem
        ⟨fun _ => ["A"], fun _ _ => some ⟨60000, true⟩,
          fun _ => some "u4k", fun _ => some ⟨40000, true⟩⟩
        ⟨false, false⟩ "202501" "A"
        ⟨∅, ∅, ∅, fun _ => none, 0, 0, 0⟩).2
        = [Attempt.detail "A", Attempt.url "u4k"] ∧
      (try_direct_cdn
        ⟨fun _ => ["A"], fun _ _ => some ⟨60000, true⟩,
          fun _ => some "u4k", fun _ => some ⟨40000, true⟩⟩
        "202501" "A" "202501_A.jpg" (fun _ => none)).1 = true := by
  decide

/-- C3 (amended): when the item is actually attempted (not on disk, not
in `done_images`): under cdn-first with fallback enabled, a failed or
undersized CDN response leads to the detail source being attempted
before the item can be marked failed; under detail-first, however, the
CDN secondary is never attempted once a detail URL is found — an
undersized payload from that URL marks the item failed directly; and
whenever the strategy block reports failure, the item's key is in
`failed_images`, absent from `done_images`, and no file remains at the
destination path. -/
theorem fallback_spec (net : Net) (args : Args) (yyyymm img_id : String)
    (st : RunSt)
    (hdisk : ((st.disk (destName yyyymm img_id)).elim false
        fun c => c.size > 50000) = false)
    (hkey : itemKey yyyymm img_id ∉ st.done_images) :
    (args.cdn_first = true → args.direct_only = false →
      (try_direct_cdn net yyyymm img_id (destName yyyymm img_id) st.disk).1
          = false →
      Attempt.detail img_id ∈ (processItem net args yyyymm img_id st).2) ∧
      (args.cdn_first = false → args.direct_only = false →
        ∀ u, net.detailUrl4k img_id = some u →
          (download_url net u (destName yyyymm img_id) st.disk).1 = false →
          itemKey yyyymm img_id
              ∈ (processItem net args yyyymm img_id st).1.failed_images ∧
            ∀ ym ii, Attempt.cdn ym ii
              ∉ (processItem net args yyyymm img_id st).2) ∧
      ((attemptDownload net args yyyymm img_id (destName yyyymm img_id)
          st.disk).1 = false →
        itemKey yyyymm img_id
            ∈ (processItem net args yyyymm img_id st).1.failed_images ∧
          itemKey yyyymm img_id
            ∉ (processItem net args yyyymm img_id st).1.done_images ∧
          (processItem net args yyyymm img_id st).1.disk
            (destName yyyymm img_id) = none) := by
  have h1 : ¬ (((st.disk (destName yyyymm img_id)).elim false
      fun c => c.size > 50000) = true) := by
    rw [hdisk]
    exact Bool.false_ne_true
  rw [processItem, if_neg h1, if_neg hkey]
  refine ⟨?_, ?_, ?_⟩
  · intro hc hd hcdnfail
    have hdet : Attempt.detail img_id
        ∈ (attemptDownload net args yyyymm img_id (destName yyyymm img_id)
            st.disk).2.2 := by
      rcases hdl : net.detailUrl4k img_id with - | u <;>
        simp [attemptDownload, hc, hd, hcdnfail, hdl]
    split
    · exact hdet
    · exact hdet
  · intro hc hd u hdl hdlfail
    have hatt : attemptDownload net args yyyymm img_id
        (destName yyyymm img_id) st.disk
        = ((download_url net u (destName yyyymm img_id) st.disk).1,
            (download_url net u (destName yyyymm img_id) st.disk).2,
            [Attempt.detail img_id, Attempt.url u]) := by
      rw [attemptDownload, hc, hd]
      simp [hdl]
    rw [hatt, hdlfail, if_neg Bool.false_ne_true]
    refine ⟨Finset.mem_insert_self _ _, ?_⟩
    intro ym ii
    simp
  · intro hfail
    rw [if_neg (show ¬ ((attemptDownload net args yyyymm img_id
        (destName yyyymm img_id) st.disk).1 = true) by
      rw [hfail]; exact Bool.false_ne_true)]
    refine ⟨Finset.mem_insert_self _ _, hkey, ?_⟩
    simp [diskErase]

/-- Witness for `fallback_spec`: the concrete detail-first environment of
`detail_first_no_fallback` (undersized detail payload, healthy CDN),
exercising the detail-first conjunct and the failure-outcome conjunct. -/
theorem fallback_spec_witness :
    ((⟨false, false⟩ : Args).cdn_first = true →
      (⟨false, false⟩ : Args).direct_only = false →
      (try_direct_cdn
          ⟨fun _ => ["A"], fun _ _ => some ⟨60000, true⟩,
            fun _ => some "u4k", fun _ => some ⟨40000, true⟩⟩
          "202501" "A" (destName "202501" "A") (fun _ => none)).1 = false →
      Attempt.detail "A" ∈ (processItem
          ⟨fun _ => ["A"], fun _ _ => some ⟨60000, true⟩,
            fun _ => some "u4k", fun _ => some ⟨40000, true⟩⟩
          ⟨false, false⟩ "202501" "A"
          ⟨∅, ∅, ∅, fun _ => none, 0, 0, 0⟩).2) ∧
      ((⟨false, false⟩ : Args).cdn_first = false →
        (⟨false, false⟩ : Args).direct_only = false →
        ∀ u, (⟨fun _ => ["A"], fun _ _ => some ⟨60000, true⟩,
            fun _ => some "u4k", fun _ => some ⟨40000, true⟩⟩ : Net).detailUrl4k
            "A" = some u →
          (download_url
            ⟨fun _ => ["A"], fun _ _ => some ⟨60000, true⟩,
              fun _ => some "u4k", fun _ => some ⟨40000, true⟩⟩
            u (destName "202501" "A") (fun _ => none)).1 = false →
          itemKey "202501" "A" ∈ (processItem
              ⟨fun _ => ["A"], fun _ _ => some ⟨60000, true⟩,
                fun _ => some "u4k", fun _ => some ⟨40000, true⟩⟩
              ⟨false, false⟩ "202501" "A"
              ⟨∅, ∅, ∅, fun _ => none, 0, 0, 0⟩).1.failed_images ∧
            ∀ ym ii, Attempt.cdn ym ii ∉ (processItem
              ⟨fun _ => ["A"], fun _ _ => some ⟨60000, true⟩,
                fun _ => some "u4k", fun _ => some ⟨40000, true⟩⟩
              ⟨false, false⟩ "202501" "A"
              ⟨∅, ∅, ∅, fun _ => none, 0, 0, 0⟩).2) ∧
      ((attemptDownload
          ⟨fun _ => ["A"], fun _ _ => some ⟨60000, true⟩,
            fun _ => some "u4k", fun _ => some ⟨40000, true⟩⟩
          ⟨false, false⟩ "202501" "A" (destName "202501" "A")
          (fun _ => none)).1 = false →
        itemKey "202501" "A" ∈ (processItem
            ⟨fun _ => ["A"], fun _ _ => some ⟨60000, true⟩,
              fun _ => some "u4k", fun _ => some ⟨40000, true⟩⟩
            ⟨false, false⟩ "202501" "A"
            ⟨∅, ∅, ∅, fun _ => none, 0, 0, 0⟩).1.failed_images ∧
          itemKey "202501" "A" ∉ (processItem
            ⟨fun _ => ["A"], fun _ _ => some ⟨60000, true⟩,
              fun _ => some "u4k", fun _ => some ⟨40000, true⟩⟩
            ⟨false, false⟩ "202501" "A"
            ⟨∅, ∅, ∅, fun _ => none, 0, 0, 0⟩).1.done_images ∧
          (processItem
            ⟨fun _ => ["A"], fun _ _ => some ⟨60000, true⟩,
              fun _ => some "u4k", fun _ => some ⟨40000, true⟩⟩
            ⟨false, false⟩ "202501" "A"
            ⟨∅, ∅, ∅, fun _ => none, 0, 0, 0⟩).1.disk
            (destName "202501" "A") = none) :=
  fallback_spec
    ⟨fun _ => ["A"], fun _ _ => some ⟨60000, true⟩,
      fun _ => some "u4k", fun _ => some ⟨40000, true⟩⟩
    ⟨false, false⟩ "202501" "A" ⟨∅, ∅, ∅, fun _ => none, 0, 0, 0⟩
    (by decide) (by decide)

end Wallpaper
